import Mathlib

/-!
Verification of the AI-micro-project-generator pipeline.

Shallow embedding of the pure/string-processing core of the repository
(`src/aipg/prompting/utils.py`, `src/aipg/assistant.py`,
`src/aipg/task_inference/task_inference.py`, `src/aipg/sandbox/service.py`,
`src/aipg/rag/service.py`) into Lean, together with theorems about the
pipeline's stated properties.

Python strings are modelled as Lean `String`s; the relevant pieces of the
Python standard library semantics (`str.splitlines`, `str.strip`,
whitespace classes of `re.\s`, `float(...)` coercion) are embedded
explicitly below.
-/

set_option maxRecDepth 16384

namespace AIPG

/-! ## Python string primitives

Models of the CPython semantics the source relies on: the `str.isspace`
whitespace class (which is also what `re`'s `\s` matches for `str`
patterns), `str.splitlines` line-boundary set, `str.strip`, `str.lower`
(ASCII and Cyrillic ranges, which cover every character the templates
use), and whitespace-run splitting as done by `str.split()`.
-/

/-- Characters Python treats as whitespace (`str.isspace`, `re` `\s`). -/
def pyIsWs (c : Char) : Bool :=
  c = ' ' || c = '\t' || c = '\n' || c = '\x0b' || c = '\x0c' || c = '\r' ||
  c = '\x1c' || c = '\x1d' || c = '\x1e' || c = '\x1f' ||
  c = '\u0085' || c = ' ' || c = ' ' ||
  (' ' ≤ c && c ≤ ' ') ||
  c = ' ' || c = ' ' || c = ' ' || c = ' ' || c = '　'

/-- Line-boundary characters of Python `str.splitlines` (besides `"\r\n"`). -/
def pyIsLineBreak (c : Char) : Bool :=
  c = '\n' || c = '\r' || c = '\x0b' || c = '\x0c' ||
  c = '\x1c' || c = '\x1d' || c = '\x1e' ||
  c = '\u0085' || c = ' ' || c = ' '

/-- Python `str.splitlines` on a character list: `"\r\n"` is one boundary
(the flag records whether the previous character was a bare `"\r"`, whose
line was already emitted, so that a directly following `"\n"` is
swallowed), and a trailing boundary does not produce a final empty
line. -/
def pySplitLinesGo : Bool → List Char → List Char → List String
  | _, [], cur => if cur.isEmpty then [] else [String.mk cur.reverse]
  | prevCR, c :: rest, cur =>
    if prevCR && c = '\n' then pySplitLinesGo false rest cur
    else if c = '\r' then String.mk cur.reverse :: pySplitLinesGo true rest []
    else if pyIsLineBreak c then String.mk cur.reverse :: pySplitLinesGo false rest []
    else pySplitLinesGo false rest (c :: cur)

/-- Python `str.splitlines`. -/
def pySplitLines (s : String) : List String :=
  pySplitLinesGo false s.data []

/-- Python `str.strip()` on a character list. -/
def pyStripChars (cs : List Char) : List Char :=
  ((cs.dropWhile pyIsWs).reverse.dropWhile pyIsWs).reverse

/-- Python `str.strip()`. -/
def pyStrip (s : String) : String :=
  String.mk (pyStripChars s.data)

/-- `line.strip() == ""` — the blank-line test used throughout the parser. -/
def isBlankLine (s : String) : Bool :=
  s.data.all pyIsWs

/-- Python `str.split()` (split on whitespace runs, dropping empty parts). -/
def pySplitWsAux : List Char → List Char → List String
  | [], cur => if cur.isEmpty then [] else [String.mk cur.reverse]
  | c :: rest, cur =>
    if pyIsWs c then
      if cur.isEmpty then pySplitWsAux rest []
      else String.mk cur.reverse :: pySplitWsAux rest []
    else pySplitWsAux rest (c :: cur)

/-- Python `str.split()`. -/
def pySplitWs (s : String) : List String :=
  pySplitWsAux s.data []

/-- Python `str.lower()`, modelled for the ASCII and Cyrillic ranges
(the only cased characters appearing in the document templates). -/
def pyLowerChar (c : Char) : Char :=
  if 'A' ≤ c && c ≤ 'Z' then Char.ofNat (c.toNat + 32)
  else if 'А' ≤ c && c ≤ 'Я' then Char.ofNat (c.toNat + 32)
  else if c = 'Ё' then 'ё'
  else c

/-- Python `str.lower()`. -/
def pyLower (s : String) : String :=
  String.mk (s.data.map pyLowerChar)

/-- `sub` occurs as a contiguous sublist of `s`. -/
def charsContain : List Char → List Char → Bool
  | sub, [] => sub.isEmpty
  | sub, c :: rest => List.isPrefixOf sub (c :: rest) || charsContain sub rest

/-- Python `sub in s` substring containment. -/
def containsSub (s sub : String) : Bool :=
  charsContain sub.data s.data

/-! ## The markdown fence / header regexes

`src/aipg/prompting/utils.py` lines 17–18:

  `_MD_HEADER_RE = re.compile(r"^\s{0,3}(#{1,6})\s+(.+?)\s*(?:#+\s*)?$")`
  `_MD_FENCE_RE  = re.compile(r"^\s*([`~]{3,})(.*)$")`

Both are embedded as total functions computing the captured groups.  The
character class `[`~]{3,}` matches a (possibly mixed) run of backticks
and tildes; `group(1)[0]` is the run's first character.
-/

/-- Result of `_MD_FENCE_RE.match(line)`: the fence run's first character
(`ticks[0]`), the run length, and `group(2)` (the remainder of the line). -/
structure FenceMatch where
  char : Char
  count : Nat
  rest : String
  deriving DecidableEq, Repr

/-- A backtick or tilde, the `[`~]` class of `_MD_FENCE_RE`. -/
def isTickChar (c : Char) : Bool :=
  c = '`' || c = '~'

/-- `_MD_FENCE_RE.match(line)`: optional leading whitespace, then a run of
three or more backticks/tildes, then the rest of the line. -/
def matchFence (line : String) : Option FenceMatch :=
  let cs := line.data.dropWhile pyIsWs
  let ticks := cs.takeWhile isTickChar
  if ticks.length < 3 then none
  else some ⟨ticks.headD '`', ticks.length, String.mk (cs.dropWhile isTickChar)⟩

/-- `_MD_HEADER_RE.match(line)`, returning `group(2)` on a match.

The regex is `^\s{0,3}(#{1,6})\s+(.+?)\s*(?:#+\s*)?$`.  After the leading
whitespace (at most 3 characters) and the `#` run (1–6 characters, not
followed by a further `#`), the backtracking semantics of the greedy
`\s+`, lazy `(.+?)` and the optional trailing-hash group reduce to a
closed form: the trailing part of the line that matches `\s*(#+\s*)?` is
made as long as possible while leaving at least one whitespace character
for `\s+` and one character for the lazy group; `group(2)` is what
remains in between. -/
def matchHeader (line : String) : Option String :=
  let cs := line.data
  let lead := cs.takeWhile pyIsWs
  if lead.length > 3 then none
  else
    let afterLead := cs.dropWhile pyIsWs
    let hs := afterLead.takeWhile (fun c => c = '#')
    if hs.length = 0 || hs.length > 6 then none
    else
      let r := afterLead.drop hs.length
      let w0 := r.takeWhile pyIsWs
      if w0.length = 0 then none
      else
        let rest := r.drop w0.length
        if rest.isEmpty then
          -- everything after the hashes is whitespace: the lazy group is
          -- forced to capture the final whitespace character
          if r.length ≥ 2 then some (String.mk (r.drop (r.length - 1))) else none
        else
          let rrev := rest.reverse
          let a := (rrev.takeWhile pyIsWs).length
          let afterA := rrev.drop a
          let b := (afterA.takeWhile (fun c => c = '#')).length
          let c := ((afterA.drop b).takeWhile pyIsWs).length
          let maxSuffix := if b = 0 then a else a + b + c
          let tlen := min maxSuffix (rest.length - 1)
          some (String.mk (rest.take (rest.length - tlen)))

/-! ## `parse_markdown_headers` (utils.py lines 131–225)

A single pass over the lines, tracking fenced-code state so that headers
inside code fences are ignored; produces ordered `(header, content)`
pairs with each content trimmed of leading/trailing blank lines.
-/

/-- Drop leading and trailing blank lines (the `start`/`end` trimming in
`flush_current_section`). -/
def trimBlankEnds (ls : List String) : List String :=
  ((ls.dropWhile isBlankLine).reverse.dropWhile isBlankLine).reverse

/-- Scanner state of `parse_markdown_headers`.  Python represents "no
fence char" as the empty string; here `fenceChar`/`fenceLen` are only
read while `inFence = true`, and are reset to `' '`/`0` on close. -/
structure MdScanState where
  sections : List (String × String)
  currentHeader : Option String
  content : List String
  inFence : Bool
  fenceChar : Char
  fenceLen : Nat
  deriving DecidableEq, Repr

def initMdState : MdScanState :=
  ⟨[], none, [], false, ' ', 0⟩

/-- `flush_current_section`. -/
def flushSection (st : MdScanState) : MdScanState :=
  match st.currentHeader with
  | none => { st with content := [] }
  | some h =>
    { st with
      sections := st.sections ++ [(h, String.intercalate "\n" (trimBlankEnds st.content))]
      currentHeader := none
      content := [] }

/-- Append `line` to the running content if a section is open
(`if current_header is not None: current_content_lines.append(line)`). -/
def appendContent (st : MdScanState) (line : String) : MdScanState :=
  if st.currentHeader.isSome then { st with content := st.content ++ [line] } else st

/-- One iteration of the `for line in lines` loop of
`parse_markdown_headers`. -/
def mdStep (st : MdScanState) (line : String) : MdScanState :=
  match matchFence line with
  | some fm =>
    if !st.inFence then
      { (appendContent st line) with inFence := true, fenceChar := fm.char, fenceLen := fm.count }
    else if fm.char = st.fenceChar && fm.count ≥ st.fenceLen then
      { (appendContent st line) with inFence := false, fenceChar := ' ', fenceLen := 0 }
    else
      -- a fence-looking line inside the fence that does not close it is
      -- ordinary in-fence content
      appendContent st line
  | none =>
    if st.inFence then
      appendContent st line
    else
      match matchHeader line with
      | some g2 =>
        let st := flushSection st
        { st with currentHeader := some (pyStrip g2), content := [] }
      | none => appendContent st line

/-- `parse_markdown_headers(markdown_text)`. -/
def parseMarkdownHeaders (markdown_text : String) : List (String × String) :=
  if markdown_text = "" then []
  else (flushSection ((pySplitLines markdown_text).foldl mdStep initMdState)).sections

/-! ## `extract_expected_output` (utils.py lines 341–456) -/

/-- The `lang_hint = rest.split()[0] if rest else None` computation applied
to a fence line's `group(2)` (after `rest = m.group(2).strip()`). -/
def langOfRest (rest : String) : Option String :=
  let r := pyStrip rest
  if r = "" then none else some ((pySplitWs r).headD "")

/-- Scanner state of `_strip_all_fenced_code_markers`. -/
structure StripScanState where
  out : List String
  inFence : Bool
  fenceChar : Char
  fenceLen : Nat
  deriving DecidableEq, Repr

/-- One line of `_strip_all_fenced_code_markers`: fence markers (opening,
closing, and fence-looking lines inside an open fence) are dropped, every
other line is kept. -/
def stripMarkersStep (st : StripScanState) (line : String) : StripScanState :=
  match matchFence line with
  | some fm =>
    if !st.inFence then
      { st with inFence := true, fenceChar := fm.char, fenceLen := fm.count }
    else if fm.char = st.fenceChar && fm.count ≥ st.fenceLen then
      { st with inFence := false, fenceChar := ' ', fenceLen := 0 }
    else st
  | none => { st with out := st.out ++ [line] }

/-- `_strip_all_fenced_code_markers(text)`. -/
def stripAllFencedCodeMarkers (text : String) : String :=
  pyStrip (String.intercalate "\n"
    ((pySplitLines text).foldl stripMarkersStep ⟨[], false, ' ', 0⟩).out)

/-- Scanner state of the top-level fenced-block scan in
`extract_expected_output` (start index, end index, language hint). -/
structure BlockScanState where
  blocks : List (Nat × Nat × Option String)
  inFence : Bool
  fenceChar : Char
  fenceLen : Nat
  lang : Option String
  startIdx : Nat
  idx : Nat
  deriving DecidableEq, Repr

/-- One line of the block scan. -/
def blockScanStep (st : BlockScanState) (line : String) : BlockScanState :=
  let next := { st with idx := st.idx + 1 }
  match matchFence line with
  | some fm =>
    if !st.inFence then
      { next with inFence := true, fenceChar := fm.char, fenceLen := fm.count,
                  lang := langOfRest fm.rest, startIdx := st.idx }
    else if fm.char = st.fenceChar && fm.count ≥ st.fenceLen then
      { next with blocks := st.blocks ++ [(st.startIdx, st.idx, st.lang)],
                  inFence := false, fenceChar := ' ', fenceLen := 0,
                  lang := none, startIdx := 0 }
    else next
  | none => next

/-- The `(start_idx, idx, lang_hint)` list of completed top-level fenced
blocks of a line list. -/
def scanBlocks (lines : List String) : List (Nat × Nat × Option String) :=
  (lines.foldl blockScanStep ⟨[], false, ' ', 0, none, 0, 0⟩).blocks

/-- `lang and lang.lower() in {"markdown", "md"}`. -/
def isMarkdownLang : Option String → Bool
  | some l => pyLower l = "markdown" || pyLower l = "md"
  | none => false

/-- `extract_expected_output(raw_reply)`. -/
def extractExpectedOutput (raw_reply : String) : String :=
  if raw_reply = "" then ""
  else
    let lines := pySplitLines raw_reply
    match scanBlocks lines with
    | [] => stripAllFencedCodeMarkers raw_reply
    | [(bStart, bEnd, bLang)] =>
      let hasOutsideNonblank :=
        (lines.take bStart ++ lines.drop (bEnd + 1)).any (fun l => !isBlankLine l)
      if isMarkdownLang bLang || !hasOutsideNonblank then
        stripAllFencedCodeMarkers
          (String.intercalate "\n" ((lines.drop (bStart + 1)).take (bEnd - (bStart + 1))))
      else stripAllFencedCodeMarkers raw_reply
    | _ => stripAllFencedCodeMarkers raw_reply

/-! ## `parse_project_markdown` (utils.py lines 459–693) -/

/-- `aipg.state.Project` / `aipg.domain.Project`. -/
structure Project where
  raw_markdown : String
  topic : String
  goal : String
  description : String
  input_data : String
  expected_output : String
  expert_solution : String
  autotest : String
  deriving DecidableEq, Repr

/-- The distinct `OutputParserException`s `parse_project_markdown` raises. -/
inductive ParseProjectError where
  | emptyMarkdown
  | noHeaders
  | topicParse
  | missingSections (missing : List String)
  | expertBlockMissing
  | autotestBlockMissing
  | autotestNotPython (lang : Option String)
  deriving DecidableEq, Repr

/-- `pre.isPrefixOf`-style model of Python `str.startswith`. -/
def strStartsWith (s pre : String) : Bool :=
  List.isPrefixOf pre.data s.data

/-- `_unwrap_outer_markdown_block(text)`: strip one outer fenced block whose
opening fence carries no language or `markdown`/`md`, provided the last
non-blank line closes it. -/
def unwrapOuterMarkdownBlock (text : String) : String :=
  if text = "" then text
  else
    let lines := pySplitLines text
    match lines.findIdx? (fun l => !isBlankLine l) with
    | none => text
    | some start =>
      match matchFence (lines.getD start "") with
      | none => text
      | some fm =>
        let lang := (langOfRest fm.rest).map pyLower
        if (match lang with | some l => !(l = "markdown" || l = "md") | none => false) then
          text
        else
          match lines.reverse.findIdx? (fun l => !isBlankLine l) with
          | none => text
          | some rIdx =>
            let endIdx := lines.length - 1 - rIdx
            if endIdx ≤ start then text
            else
              match matchFence (lines.getD endIdx "") with
              | some fmc =>
                if fmc.char = fm.char && fmc.count ≥ fm.count then
                  String.intercalate "\n" ((lines.drop (start + 1)).take (endIdx - (start + 1)))
                else text
              | none => text

/-- The canonical title line marker. -/
def projectTitleMarker : String := "# Микропроект для углубления темы:"

/-- `_strip_conversational_text(text)`: drop every line before the first
line whose stripped form starts with the canonical title marker. -/
def stripConversationalText (text : String) : String :=
  if text = "" then text
  else
    let lines := pySplitLines text
    match lines.findIdx? (fun l => strStartsWith (pyStrip l) projectTitleMarker) with
    | some i => String.intercalate "\n" (lines.drop i)
    | none => text

/-- Collapse every whitespace run to a single space
(`re.sub(r"\s+", " ", ...)`). -/
def collapseWsRuns (cs : List Char) : List Char :=
  (cs.foldl
    (fun (acc : List Char × Bool) c =>
      if pyIsWs c then (if acc.2 then acc else (acc.1 ++ [' '], true))
      else (acc.1 ++ [c], false))
    ([], false)).1

/-- `_normalize_header_name(header_text)`. -/
def normalizeHeaderName (header_text : String) : String :=
  String.mk (collapseWsRuns (pyLower (pyStrip header_text)).data)

/-- `_parse_topic_from_h1(header_text)`. -/
def parseTopicFromH1 (header_text : String) : Option String :=
  if !containsSub header_text ":" then none
  else
    let after := (header_text.data.dropWhile (fun c => c ≠ ':')).drop 1
    let topic := pyStripChars after
    let topic :=
      if topic.head? = some '[' && topic.getLast? = some ']' then
        pyStripChars (topic.drop 1).dropLast
      else topic
    if topic.isEmpty then none else some (String.mk topic)

/-- Insert into an insertion-ordered map, replacing in place on key
collision (Python `dict` assignment). -/
def dictInsert (d : List (String × String)) (k v : String) : List (String × String) :=
  if d.any (fun kv => kv.1 = k) then
    d.map (fun kv => if kv.1 = k then (k, v) else kv)
  else d ++ [(k, v)]

/-- The `normalized_map` built from the section list. -/
def buildNormalizedMap (sections : List (String × String)) : List (String × String) :=
  sections.foldl (fun d hc => dictInsert d (normalizeHeaderName hc.1) hc.2) []

/-- Exact-key lookup in the insertion-ordered map. -/
def dictGet (d : List (String × String)) (k : String) : Option String :=
  (d.find? (fun kv => kv.1 = k)).map Prod.snd

/-- Section lookup: exact match first, then the first key that starts with
the wanted key, in insertion order. -/
def lookupSection (d : List (String × String)) (key : String) : Option String :=
  match dictGet d key with
  | some v => some v
  | none => (d.find? (fun kv => strStartsWith kv.1 key)).map Prod.snd

/-- Python `str.rstrip("\n")`. -/
def pyRstripNewlines (s : String) : String :=
  String.mk (s.data.reverse.dropWhile (fun c => c = '\n')).reverse

/-- `_find_first_fenced_block(text)` body: returns the language hint and
the joined, newline-rstripped buffer of the first completed fenced block. -/
def findFirstFencedBlockAux :
    List String → Bool → Char → Nat → Option String → List String →
    Option (Option String × String)
  | [], _, _, _, _, _ => none
  | line :: rest, inFence, fc, fl, lang, buf =>
    match matchFence line with
    | some fm =>
      if !inFence then
        findFirstFencedBlockAux rest true fm.char fm.count (langOfRest fm.rest) []
      else if fm.char = fc && fm.count ≥ fl then
        some (lang, pyRstripNewlines (String.intercalate "\n" buf))
      else findFirstFencedBlockAux rest inFence fc fl lang (buf ++ [line])
    | none =>
      if inFence then findFirstFencedBlockAux rest inFence fc fl lang (buf ++ [line])
      else findFirstFencedBlockAux rest inFence fc fl lang buf

/-- `_find_first_fenced_block(text)`. -/
def findFirstFencedBlock (text : String) : Option (Option String × String) :=
  if text = "" then none
  else findFirstFencedBlockAux (pySplitLines text) false ' ' 0 none []

/-- The six required section headers, in template order, paired with
nothing but their normalized Russian names (`key_map` keys). -/
def requiredSectionKeys : List String :=
  ["цель микропроекта", "описание микропроекта", "входные данные",
   "ожидаемый результат", "эталонное решение", "автотест"]

/-- `auto_lang and auto_lang.lower() in {"python", "py"}`. -/
def isPythonLang : Option String → Bool
  | some l => pyLower l = "python" || pyLower l = "py"
  | none => false

/-- The body of `parse_project_markdown` after preprocessing: header scan,
section collection, topic extraction and per-section refinement. -/
def projectFromPreprocessed (preprocessed : String) : Except ParseProjectError Project :=
  let sections := parseMarkdownHeaders preprocessed
  if sections.isEmpty then .error .noHeaders
  else
    let nm := buildNormalizedMap sections
    let firstH1 := (sections.headD ("", "")).1
    match parseTopicFromH1 firstH1 with
    | none => .error .topicParse
    | some topic =>
      let missing := requiredSectionKeys.filter (fun k => (lookupSection nm k).isNone)
      if !missing.isEmpty then .error (.missingSections missing)
      else
        let goal := (lookupSection nm "цель микропроекта").getD ""
        let description := (lookupSection nm "описание микропроекта").getD ""
        let inputData := (lookupSection nm "входные данные").getD ""
        let expectedOutputRaw := (lookupSection nm "ожидаемый результат").getD ""
        let expertSolutionRaw := (lookupSection nm "эталонное решение").getD ""
        let autotestRaw := (lookupSection nm "автотест").getD ""
        let expectedOutput := extractExpectedOutput expectedOutputRaw
        match findFirstFencedBlock expertSolutionRaw with
        | none => .error .expertBlockMissing
        | some (_, expertCode) =>
          match findFirstFencedBlock autotestRaw with
          | none => .error .autotestBlockMissing
          | some (autoLang, autoCode) =>
            if !isPythonLang autoLang then .error (.autotestNotPython autoLang)
            else
              .ok ⟨preprocessed, topic, pyStrip goal, pyStrip description,
                   pyStrip inputData, expectedOutput, expertCode, autoCode⟩

/-- `parse_project_markdown(raw_markdown)`. -/
def parseProjectMarkdown (raw_markdown : String) : Except ParseProjectError Project :=
  if raw_markdown = "" || pyStrip raw_markdown = "" then .error .emptyMarkdown
  else
    projectFromPreprocessed
      (stripConversationalText (unwrapOuterMarkdownBlock raw_markdown))

/-! ## `parse_llm_ranker_scores` (utils.py lines 696–763)

The claims concern the element-validation stage, which runs on the value
`json.loads` produced; JSON values are modelled by `PyJson` with numbers
as exact rationals.  Python `float(...)` accepts numbers, booleans and
numeric strings; `None` and containers raise `TypeError`.  (Binary
floating-point rounding of `float` is not modelled: numbers are exact,
which agrees with Python on every decimal of moderate precision.)
-/

/-- A value produced by `json.loads`. -/
inductive PyJson where
  | num (q : Rat)
  | str (s : String)
  | bool (b : Bool)
  | null
  | arr (xs : List PyJson)

/-- Whether a JSON value is a number (the "numeric element" notion of the
specification). -/
def PyJson.isNumber : PyJson → Bool
  | .num _ => true
  | _ => false

mutual

/-- Decidable equality on JSON values (hand-written: automatic deriving
does not handle the nested `List`). -/
def PyJson.decEq : (a b : PyJson) → Decidable (a = b)
  | .num a, .num b =>
    if h : a = b then isTrue (h ▸ rfl) else isFalse (fun hh => h (PyJson.num.inj hh))
  | .str a, .str b =>
    if h : a = b then isTrue (h ▸ rfl) else isFalse (fun hh => h (PyJson.str.inj hh))
  | .bool a, .bool b =>
    if h : a = b then isTrue (h ▸ rfl) else isFalse (fun hh => h (PyJson.bool.inj hh))
  | .null, .null => isTrue rfl
  | .arr xs, .arr ys =>
    match PyJson.decEqList xs ys with
    | isTrue h => isTrue (h ▸ rfl)
    | isFalse h => isFalse (fun hh => h (PyJson.arr.inj hh))
  | .num _, .str _ => isFalse (fun h => PyJson.noConfusion h)
  | .num _, .bool _ => isFalse (fun h => PyJson.noConfusion h)
  | .num _, .null => isFalse (fun h => PyJson.noConfusion h)
  | .num _, .arr _ => isFalse (fun h => PyJson.noConfusion h)
  | .str _, .num _ => isFalse (fun h => PyJson.noConfusion h)
  | .str _, .bool _ => isFalse (fun h => PyJson.noConfusion h)
  | .str _, .null => isFalse (fun h => PyJson.noConfusion h)
  | .str _, .arr _ => isFalse (fun h => PyJson.noConfusion h)
  | .bool _, .num _ => isFalse (fun h => PyJson.noConfusion h)
  | .bool _, .str _ => isFalse (fun h => PyJson.noConfusion h)
  | .bool _, .null => isFalse (fun h => PyJson.noConfusion h)
  | .bool _, .arr _ => isFalse (fun h => PyJson.noConfusion h)
  | .null, .num _ => isFalse (fun h => PyJson.noConfusion h)
  | .null, .str _ => isFalse (fun h => PyJson.noConfusion h)
  | .null, .bool _ => isFalse (fun h => PyJson.noConfusion h)
  | .null, .arr _ => isFalse (fun h => PyJson.noConfusion h)
  | .arr _, .num _ => isFalse (fun h => PyJson.noConfusion h)
  | .arr _, .str _ => isFalse (fun h => PyJson.noConfusion h)
  | .arr _, .bool _ => isFalse (fun h => PyJson.noConfusion h)
  | .arr _, .null => isFalse (fun h => PyJson.noConfusion h)

/-- Decidable equality on lists of JSON values. -/
def PyJson.decEqList : (xs ys : List PyJson) → Decidable (xs = ys)
  | [], [] => isTrue rfl
  | [], _ :: _ => isFalse (fun h => List.noConfusion h)
  | _ :: _, [] => isFalse (fun h => List.noConfusion h)
  | x :: xs, y :: ys =>
    match PyJson.decEq x y with
    | isFalse h1 => isFalse (fun hh => h1 (List.cons.inj hh).1)
    | isTrue h1 =>
      match PyJson.decEqList xs ys with
      | isTrue h2 => isTrue (by rw [h1, h2])
      | isFalse h2 => isFalse (fun hh => h2 (List.cons.inj hh).2)

end

instance : DecidableEq PyJson := PyJson.decEq

instance {ε α : Type} [DecidableEq ε] [DecidableEq α] : DecidableEq (Except ε α) :=
  fun a b =>
    match a, b with
    | .ok x, .ok y =>
      if h : x = y then isTrue (h ▸ rfl) else isFalse (fun hh => h (Except.ok.inj hh))
    | .error x, .error y =>
      if h : x = y then isTrue (h ▸ rfl) else isFalse (fun hh => h (Except.error.inj hh))
    | .ok _, .error _ => isFalse (fun h => Except.noConfusion h)
    | .error _, .ok _ => isFalse (fun h => Except.noConfusion h)

/-- Parse an optionally signed digit run spanning the whole input. -/
def parseSignedDigits (cs : List Char) : Option Int :=
  let (sign, r) : Int × List Char :=
    match cs with
    | '+' :: rr => (1, rr)
    | '-' :: rr => (-1, rr)
    | rr => (1, rr)
  let ds := r.takeWhile Char.isDigit
  if ds.isEmpty || !(r.dropWhile Char.isDigit).isEmpty then none
  else some (sign * (ds.foldl (fun n c => 10 * n + ((c.toNat : Int) - 48)) 0))

/-- The exponent tail of a float literal (`""`, or `e`/`E` followed by a
signed digit run). -/
def parseExpTail : List Char → Option Int
  | [] => some 0
  | 'e' :: r => parseSignedDigits r
  | 'E' :: r => parseSignedDigits r
  | _ => none

/-- Digit run to a natural number. -/
def digitsToNat (ds : List Char) : Nat :=
  ds.foldl (fun n c => 10 * n + (c.toNat - 48)) 0

/-- Python `float(s)` on a string: optional surrounding whitespace and
sign, then a decimal literal with optional fraction and exponent; the
result is the exact rational value of the literal.  (`inf`/`nan`
spellings and digit-grouping underscores are not modelled.) -/
def pyFloatOfString (s : String) : Option Rat :=
  let cs := pyStripChars s.data
  let (sign, cs) : Int × List Char :=
    match cs with
    | '+' :: rest => (1, rest)
    | '-' :: rest => (-1, rest)
    | rest => (1, rest)
  let intPart := cs.takeWhile Char.isDigit
  let rest1 := cs.dropWhile Char.isDigit
  let (fracPart, rest2) : List Char × List Char :=
    match rest1 with
    | '.' :: r => (r.takeWhile Char.isDigit, r.dropWhile Char.isDigit)
    | r => ([], r)
  if intPart.isEmpty && fracPart.isEmpty then none
  else
    match parseExpTail rest2 with
    | none => none
    | some e =>
      let num : Int := sign * (digitsToNat intPart * 10 ^ fracPart.length + digitsToNat fracPart)
      some (match e with
        | .ofNat k => mkRat (num * 10 ^ k) (10 ^ fracPart.length)
        | .negSucc k => mkRat num (10 ^ fracPart.length * 10 ^ (k + 1)))

/-- Python `float(item)` on a `json.loads` value: numbers convert, booleans
convert (`True → 1.0`, `False → 0.0`), strings are parsed as float
literals; `null` and arrays raise `TypeError` (modelled as `none`). -/
def pyFloat : PyJson → Option Rat
  | .num q => some q
  | .bool b => some (if b then 1 else 0)
  | .str s => pyFloatOfString s
  | .null => none
  | .arr _ => none

/-- The one exception shape `parse_llm_ranker_scores`'s element loop can
escape with: "Invalid score at index {i}" with `got = str(item)`.  (The
inner "Score out of range" `OutputParserException` is a `ValueError` and
is caught and re-wrapped by the `except (ValueError, TypeError)` clause,
so it too surfaces with this shape.) -/
inductive RankerScoreError where
  | invalidScore (index : Nat) (item : PyJson)
  deriving DecidableEq

/-- The element-validation loop of `parse_llm_ranker_scores`
(utils.py lines 744–763), starting from the loaded JSON list. -/
def rankerScoresFromList : Nat → List PyJson → Except RankerScoreError (List Rat)
  | _, [] => .ok []
  | i, item :: rest =>
    match pyFloat item with
    | none => .error (.invalidScore i item)
    | some score =>
      if !(0 ≤ score && score ≤ 1) then .error (.invalidScore i item)
      else
        match rankerScoresFromList (i + 1) rest with
        | .ok scores => .ok (score :: scores)
        | .error e => .error e

/-- `parse_llm_ranker_scores` validation stage on a loaded JSON array. -/
def parseLlmRankerScoresOfList (items : List PyJson) : Except RankerScoreError (List Rat) :=
  rankerScoresFromList 0 items

/-- The leading guard of `parse_llm_ranker_scores` (utils.py lines
708–709): an empty or whitespace-only reply returns `[]` before any of
the extraction/JSON machinery (abstracted as `rest`) runs. -/
def parseLlmRankerScoresGuard
    (rest : String → Except RankerScoreError (List Rat)) (raw_reply : String) :
    Except RankerScoreError (List Rat) :=
  if raw_reply = "" || pyStrip raw_reply = "" then .ok []
  else rest raw_reply

/-- The leading guard of `parse_define_topics` (utils.py lines 778–779):
an empty or whitespace-only reply returns `[]` before any of the
extraction/YAML machinery (abstracted as `rest`) runs. -/
def parseDefineTopicsGuard
    (rest : String → Except String (List String)) (raw_reply : String) :
    Except String (List String) :=
  if raw_reply = "" || pyStrip raw_reply = "" then .ok []
  else rest raw_reply

/-! ## `PythonSandboxService.run_code` (sandbox/service.py lines 20–37) -/

/-- `SandboxResult` (sandbox/domain.py). -/
structure SandboxResult where
  stdout : String
  stderr : String
  exit_code : Int
  timed_out : Bool
  deriving DecidableEq, Repr

/-- The argument record handed to `SandboxRunner.run`. -/
structure RunnerCall where
  code : String
  input_data : Option String
  timeout_seconds : Int
  deriving DecidableEq, Repr

/-- `PythonSandboxService.run_code`: validation then dispatch.  The
result is the call forwarded to the runner port; `Except.error` models
the raised `ValueError`, in which case the runner is never invoked. -/
def runCodeDispatch (default_timeout_seconds : Int) (code : String)
    (input_data : Option String) (timeout_seconds : Option Int) :
    Except String RunnerCall :=
  if pyStrip code = "" then .error "code must be a non-empty string"
  else
    .ok ⟨code, input_data,
         match timeout_seconds with
         | none => default_timeout_seconds
         | some t => t⟩

/-! ## `RagService.save` (rag/service.py lines 69–84) -/

/-- The metadata entry `save` stores. -/
structure SaveEntry where
  topic : String
  micro_project : Project
  deriving DecidableEq, Repr

/-- The id `RagService.save` passes to `VectorStorePort.add`: the topic
string itself (`ids=[topic]`). -/
def ragSaveId (topic : String) (_micro_project : Project) : String := topic

/-- The metadata `RagService.save` passes to `VectorStorePort.add`
(`metadatas=[{"topic": topic, "micro_project": micro_project}]`). -/
def ragSaveEntry (topic : String) (micro_project : Project) : SaveEntry :=
  ⟨topic, micro_project⟩

/-- Modelled from the spec: the vector store behind `VectorStorePort.add`
is out of core scope and consumed only through its port; it is modelled
as a keyed store in which adding under an already-present id replaces
that entry. -/
def storeAdd (store : List (String × SaveEntry)) (id : String) (e : SaveEntry) :
    List (String × SaveEntry) :=
  if store.any (fun kv => kv.1 = id) then
    store.map (fun kv => if kv.1 = id then (id, e) else kv)
  else store ++ [(id, e)]

/-- `RagService.save` acting on the modelled store. -/
def ragSave (store : List (String × SaveEntry)) (topic : String) (p : Project) :
    List (String × SaveEntry) :=
  storeAdd store (ragSaveId topic p) (ragSaveEntry topic p)

/-- Modelled from the spec: "write to the retrieval store keyed by a
content hash of (topic, raw_source_text), making re-saves idempotent" —
a content-hash keying identifies exactly the saves whose
(topic, raw_source_text) contents agree. -/
def isContentHashKeyed (key : String → Project → String) : Prop :=
  ∀ t₁ t₂ p₁ p₂, key t₁ p₁ = key t₂ p₂ ↔ (t₁ = t₂ ∧ p₁.raw_markdown = p₂.raw_markdown)

/-! ## `ProjectAssistant.process_topic` (assistant.py lines 80–207)

The generation path of `process_topic` (the branch entered when retrieval
and ranking left `state.project` unset) is modelled as a deterministic
function of the successive outcomes the five surrounding stages return:
the generated project, the successive parsed validator reports, the
successive corrected projects, the successive sandbox execution results
and the successive bug-fixed projects.  Each stage's internal parse-retry
is part of the stage; a run in which some stage exhausts its retries
raises out of `process_topic` (the `pipeline-error` outcome) and is
outside this model, which covers exactly the runs in which every invoked
stage returns.
-/

/-- `ProjectValidationCheck` (domain.py). -/
structure ProjectValidationCheck where
  rule_id : String
  passed : Bool
  comment : String
  deriving DecidableEq, Repr

/-- `ProjectValidationResult` (domain.py). -/
structure ProjectValidationResult where
  is_valid : Bool
  checks : List ProjectValidationCheck
  deriving DecidableEq, Repr

/-- `ProcessTopicAgentState` (domain.py), candidates omitted (empty on
the modelled generation path). -/
structure ProcessTopicAgentState where
  topic : String
  project : Option Project
  validation_result : Option ProjectValidationResult
  execution_result : Option SandboxResult
  deriving DecidableEq, Repr

/-- The successive outcomes returned by the stages `process_topic`
invokes on the generation path. -/
structure StageOutcomes where
  genOut : Project
  vOut : Nat → ProjectValidationResult
  cOut : Nat → Project
  eOut : Nat → SandboxResult
  bOut : Nat → Project

/-- Pipeline state: the agent state plus how many times each stage has
returned so far (indexing the outcome streams). -/
structure PipelineSt where
  state : ProcessTopicAgentState
  vCalls : Nat
  cCalls : Nat
  eCalls : Nat
  bCalls : Nat
  deriving DecidableEq, Repr

/-- `ProjectValidatorInference.transform`: no-op without a project,
otherwise stores the next parsed validation report. -/
def validatorTransform (o : StageOutcomes) (st : PipelineSt) : PipelineSt :=
  match st.state.project with
  | none => st
  | some _ =>
    { st with
      state := { st.state with validation_result := some (o.vOut st.vCalls) }
      vCalls := st.vCalls + 1 }

/-- `ProjectCorrectorInference.transform`: no-op without a project or a
validation result, otherwise replaces the project with the next corrected
document. -/
def correctorTransform (o : StageOutcomes) (st : PipelineSt) : PipelineSt :=
  match st.state.project, st.state.validation_result with
  | some _, some _ =>
    { st with
      state := { st.state with project := some (o.cOut st.cCalls) }
      cCalls := st.cCalls + 1 }
  | _, _ => st

/-- The autotest placeholder token. -/
def placeholderToken : String := "{STUDENT_SOLUTION}"

/-- The synthetic failing result `CheckAutotestSandboxInference` builds
when the placeholder is missing from the autotest. -/
def missingPlaceholderResult : SandboxResult :=
  ⟨"", "{STUDENT_SOLUTION} должен присутствовать в Автотесте. Проверь его и попробуй снова.",
   1, false⟩

/-- `CheckAutotestSandboxInference.transform`: no-op without a project;
synthetic `exit_code=1` result without invoking the sandbox when the
placeholder is missing; otherwise stores the next sandbox result. -/
def checkAutotestTransform (o : StageOutcomes) (st : PipelineSt) : PipelineSt :=
  match st.state.project with
  | none => st
  | some p =>
    if !containsSub p.autotest placeholderToken then
      { st with state := { st.state with execution_result := some missingPlaceholderResult } }
    else
      { st with
        state := { st.state with execution_result := some (o.eOut st.eCalls) }
        eCalls := st.eCalls + 1 }

/-- `BugFixerInference.transform`: no-op without a project or an
execution result, no-op when the execution result passed, otherwise
replaces the project with the next bug-fixed document. -/
def bugFixerTransform (o : StageOutcomes) (st : PipelineSt) : PipelineSt :=
  match st.state.project, st.state.execution_result with
  | some _, some r =>
    if r.exit_code = 0 && !r.timed_out then st
    else
      { st with
        state := { st.state with project := some (o.bOut st.bCalls) }
        bCalls := st.bCalls + 1 }
  | _, _ => st

/-- `state.validation_result and not state.validation_result.is_valid`. -/
def needsCorrection (s : ProcessTopicAgentState) : Bool :=
  match s.validation_result with
  | some v => !v.is_valid
  | none => false

/-- `state.validation_result and state.validation_result.is_valid`. -/
def validPass (s : ProcessTopicAgentState) : Bool :=
  match s.validation_result with
  | some v => v.is_valid
  | none => false

/-- `state.execution_result and (exit_code != 0 or timed_out)`. -/
def execFailing (s : ProcessTopicAgentState) : Bool :=
  match s.execution_result with
  | some r => r.exit_code ≠ 0 || r.timed_out
  | none => false

/-- `state.execution_result and exit_code == 0 and not timed_out`. -/
def execPassing (s : ProcessTopicAgentState) : Bool :=
  match s.execution_result with
  | some r => r.exit_code = 0 && !r.timed_out
  | none => false

/-- The `for attempt in range(1, project_correction_attempts + 1)` loop
(assistant.py lines 108–123): validate; if the report is present and
invalid, correct, and if correction left no project restore the snapshot
and break; otherwise break. -/
def validateCorrectLoop (o : StageOutcomes) (prev : Project) :
    Nat → PipelineSt → PipelineSt
  | 0, st => st
  | fuel + 1, st =>
    let st1 := validatorTransform o st
    if needsCorrection st1.state then
      let st2 := correctorTransform o st1
      if st2.state.project.isNone then
        { st2 with state := { st2.state with project := some prev } }
      else validateCorrectLoop o prev fuel st2
    else st1

/-- The post-loop block (assistant.py lines 124–151): restore the
snapshot if the project was lost, then, unless the last report is a
confirmed pass, run one final validation and on failure roll back to the
snapshot and clear the validation result. -/
def finalValidationPhase (o : StageOutcomes) (prev : Project) (st : PipelineSt) : PipelineSt :=
  let st :=
    if st.state.project.isNone then
      { st with state := { st.state with project := some prev } }
    else st
  if !validPass st.state then
    let st1 := validatorTransform o st
    if !validPass st1.state then
      { st1 with state := { st1.state with project := some prev, validation_result := none } }
    else st1
  else st

/-- The `for attempt in range(1, bug_fix_attempts + 1)` loop
(assistant.py lines 165–192): while the last execution failed, bug-fix,
re-run the autotest, and stop early on the first pass. -/
def bugFixLoop (o : StageOutcomes) : Nat → PipelineSt → PipelineSt
  | 0, st => st
  | fuel + 1, st =>
    if execFailing st.state then
      let st1 := bugFixerTransform o st
      let st2 := checkAutotestTransform o st1
      if execPassing st2.state then st2 else bugFixLoop o fuel st2
    else st

/-- Final pipeline state together with whether the project was persisted
to the retrieval store. -/
structure TopicOutcome where
  final : PipelineSt
  saved : Bool
  deriving DecidableEq, Repr

/-- `process_topic`'s generation path (assistant.py lines 104–207),
entered with no project: generate, validate/correct with snapshot
rollback, then — only if the topic is valid — autotest and bug-fix, and
finally persist exactly when the project is present and the validation
result is a pass. -/
def processTopicGenerationPath (o : StageOutcomes)
    (project_correction_attempts bug_fix_attempts : Nat) (topic : String) : TopicOutcome :=
  let st0 : PipelineSt := ⟨⟨topic, none, none, none⟩, 0, 0, 0, 0⟩
  -- `state = await project_generation_inference.transform(state)`
  let st1 := { st0 with state := { st0.state with project := some o.genOut } }
  -- `previous_version = state.project`
  let prev := o.genOut
  let st2 := validateCorrectLoop o prev project_correction_attempts st1
  let st3 := finalValidationPhase o prev st2
  -- `if state.project and state.validation_result and ...is_valid:`
  let st4 :=
    if st3.state.project.isSome && validPass st3.state then
      bugFixLoop o bug_fix_attempts (checkAutotestTransform o st3)
    else st3
  -- `if state.project and state.validation_result and ...is_valid: save`
  ⟨st4, st4.state.project.isSome && validPass st4.state⟩

/-! ## `ProjectGenerationInference.transform` retry loop
(task_inference.py lines 138–177)

The stage builds a two-message (system, user) prompt, then runs
`for attempt in range(1, 4)`: query the model, try to parse; on a parse
failure append the model's reply and a corrective instruction to the
running message list and retry; when the `for` completes without a
`break`, re-raise the last parse error.  The model is a function of the
sequence of model replies (one per call) and of the parser; the initial
two-message prompt is carried as an opaque parameter. -/

/-- One chat message (`{"role": ..., "content": ...}`). -/
structure ChatMsg where
  role : String
  content : String
  deriving DecidableEq, Repr

/-- The corrective instruction appended after a generation parse failure
(`error_feedback`, task_inference.py lines 151–156). -/
def genErrorFeedback (e : String) : String :=
  "Ошибка парсинга: " ++ e ++ "\n\n" ++
  "ВАЖНО: Ответь ТОЛЬКО чистым markdown без дополнительных объяснений или комментариев. " ++
  "Начни сразу с заголовка '# Микропроект для углубления темы: ...' " ++
  "Не добавляй никакого текста до или после markdown контента."

/-- Outcome of the retry loop: the parsed project or the re-raised last
error, the final running message list, and how many model calls were
made. -/
structure GenOutcome where
  result : Except String Project
  prompt : List ChatMsg
  calls : Nat
  deriving DecidableEq, Repr

/-- The `for attempt in range(1, 4)`/`else` loop, with `fuel` attempts
remaining; `calls` counts model calls so far and indexes `replies`. -/
def genRetryLoop (parse : String → Except String Project) (replies : Nat → String) :
    Nat → List ChatMsg → Nat → Option String → GenOutcome
  | 0, prompt, calls, lastErr =>
    ⟨.error (lastErr.getD "Project parsing failed with no additional context"), prompt, calls⟩
  | fuel + 1, prompt, calls, _ =>
    let response := replies calls
    match parse response with
    | .ok p => ⟨.ok p, prompt, calls + 1⟩
    | .error e =>
      genRetryLoop parse replies fuel
        (prompt ++ [⟨"assistant", response⟩, ⟨"user", genErrorFeedback e⟩])
        (calls + 1) (some e)

/-- `ProjectGenerationInference.transform`'s retry loop on an initial
prompt, bounded at 3 attempts. -/
def genTransform (parse : String → Except String Project) (replies : Nat → String)
    (initPrompt : List ChatMsg) : GenOutcome :=
  genRetryLoop parse replies 3 initPrompt 0 none

/-- The two follow-up messages appended for each of the first `k` failed
attempts. -/
def genFollowUps (parse : String → Except String Project) (replies : Nat → String)
    (k : Nat) : List ChatMsg :=
  (List.range k).flatMap fun j =>
    [⟨"assistant", replies j⟩,
     ⟨"user", genErrorFeedback (match parse (replies j) with | .error e => e | .ok _ => "")⟩]

/-! ## Theorems -/

/-- C9: for every code argument that is empty or whitespace-only,
`PythonSandboxService.run_code` raises (so the runner port is never
invoked — the model returns no dispatch record), for any timeout
argument; and for non-blank code with no timeout given it dispatches to
the runner with the configured default timeout. -/
theorem runCode_blank_rejected_default_timeout
    (d : Int) (code : String) (input : Option String) :
    (∀ t : Option Int, pyStrip code = "" →
      runCodeDispatch d code input t = .error "code must be a non-empty string") ∧
    (pyStrip code ≠ "" →
      runCodeDispatch d code input none = .ok ⟨code, input, d⟩) := by
  constructor
  · intro t h
    simp [runCodeDispatch, h]
  · intro h
    simp [runCodeDispatch, h]

/-- Witness for C9 at concrete inputs: whitespace-only code `"  \t"` is
rejected for any of the two timeout shapes, and `"print(1)"` with no
timeout dispatches with the default timeout 5. -/
theorem runCode_blank_rejected_default_timeout_witness :
    runCodeDispatch 5 "  \t" none none = .error "code must be a non-empty string" ∧
    runCodeDispatch 5 "print(1)" none none = .ok ⟨"print(1)", none, 5⟩ :=
  ⟨(runCode_blank_rejected_default_timeout 5 "  \t" none).1 none (by decide),
   (runCode_blank_rejected_default_timeout 5 "print(1)" none).2 (by decide)⟩

/-- C10: an empty or whitespace-only model reply makes both the
ranking-score parser and the YAML topic-list parser return the empty
list successfully, before any of the downstream extraction/parsing
machinery (abstracted as `restScores` / `restTopics`) runs. -/
theorem blank_reply_yields_empty_lists
    (restScores : String → Except RankerScoreError (List Rat))
    (restTopics : String → Except String (List String))
    (raw : String) (h : raw = "" ∨ pyStrip raw = "") :
    parseLlmRankerScoresGuard restScores raw = .ok [] ∧
    parseDefineTopicsGuard restTopics raw = .ok [] := by
  rcases h with h | h <;>
    simp [parseLlmRankerScoresGuard, parseDefineTopicsGuard, h]

/-- Witness for C10 at the whitespace-only reply `"  \n "`, with
downstream stages that would fail if they were reached. -/
theorem blank_reply_yields_empty_lists_witness :
    parseLlmRankerScoresGuard
      (fun s => .error (.invalidScore 0 (PyJson.str s))) "  \n " = .ok [] ∧
    parseDefineTopicsGuard (fun s => .error s) "  \n " = .ok [] :=
  blank_reply_yields_empty_lists
    (fun s => .error (.invalidScore 0 (PyJson.str s))) (fun s => .error s)
    "  \n " (Or.inr (by decide))

/-- Whether a loaded JSON element survives the score validation:
`float(item)` succeeds and the value lies in `[0, 1]`. -/
def scoreOk (item : PyJson) : Bool :=
  match pyFloat item with
  | some q => decide (0 ≤ q) && decide (q ≤ 1)
  | none => false

/-- `rankerScoresFromList` succeeds on a list of valid elements,
returning the coerced scores in order. -/
theorem rankerScoresFromList_ok (n : Nat) (items : List PyJson)
    (h : ∀ item ∈ items, scoreOk item = true) :
    rankerScoresFromList n items = .ok (items.map (fun item => (pyFloat item).getD 0)) := by
  induction items generalizing n with
  | nil => rfl
  | cons item rest ih =>
    have hitem := h item (List.mem_cons_self item rest)
    have hrest : ∀ it ∈ rest, scoreOk it = true :=
      fun it hit => h it (List.mem_cons_of_mem item hit)
    unfold scoreOk at hitem
    unfold rankerScoresFromList
    cases hq : pyFloat item with
    | none => rw [hq] at hitem; exact absurd hitem (by simp)
    | some q =>
      rw [hq] at hitem
      simp only [hq]
      have hq01 : 0 ≤ q ∧ q ≤ 1 := by simpa using hitem
      rw [ih (n + 1) hrest]
      simp [hq01.1, hq01.2, hq]

/-- `rankerScoresFromList` fails at the first invalid element, naming its
index and value. -/
theorem rankerScoresFromList_err (n i : Nat) (items : List PyJson) (item : PyJson)
    (hget : items.get? i = some item) (hbad : scoreOk item = false)
    (hgood : ∀ j it, j < i → items.get? j = some it → scoreOk it = true) :
    rankerScoresFromList n items = .error (.invalidScore (n + i) item) := by
  induction items generalizing n i with
  | nil => simp at hget
  | cons hd rest ih =>
    cases i with
    | zero =>
      simp only [List.get?] at hget
      injection hget with hh
      subst hh
      unfold rankerScoresFromList
      unfold scoreOk at hbad
      cases hq : pyFloat hd with
      | none => simp [hq]
      | some q =>
        rw [hq] at hbad
        simp only [hq]
        have hcond : (!(decide (0 ≤ q) && decide (q ≤ 1))) = true := by
          simp only [Bool.not_eq_true']
          exact hbad
        rw [if_pos hcond]
        simp
    | succ i' =>
      have hhd : scoreOk hd = true :=
        hgood 0 hd (Nat.succ_pos i') rfl
      simp only [List.get?] at hget
      unfold rankerScoresFromList
      unfold scoreOk at hhd
      cases hq : pyFloat hd with
      | none => rw [hq] at hhd; exact absurd hhd (by simp)
      | some q =>
        rw [hq] at hhd
        have hq01 : 0 ≤ q ∧ q ≤ 1 := by simpa using hhd
        simp only [hq]
        rw [if_neg (by simp [hq01.1, hq01.2])]
        have := ih (n + 1) i' hget
          (fun j it hj hjget => hgood (j + 1) it (Nat.succ_lt_succ hj) hjget)
        rw [this]
        have heq : n + 1 + i' = n + (i' + 1) := by omega
        rw [heq]

/-- C8 (amended): on the loaded JSON array, if every element coerces via
Python `float` to a value in `[0, 1]` (which includes booleans and
numeric strings) the parser returns the coerced scores in order, with no
constraint relating the array length to the candidate count; and if some
element fails coercion or coerces outside `[0, 1]`, with all earlier
elements valid, the parser raises an error naming that element's index
and value. -/
theorem ranker_scores_validation (items : List PyJson) :
    ((∀ item ∈ items, scoreOk item = true) →
      parseLlmRankerScoresOfList items =
        .ok (items.map (fun item => (pyFloat item).getD 0))) ∧
    (∀ i item, items.get? i = some item → scoreOk item = false →
      (∀ j it, j < i → items.get? j = some it → scoreOk it = true) →
      parseLlmRankerScoresOfList items = .error (.invalidScore i item)) := by
  constructor
  · intro h
    exact rankerScoresFromList_ok 0 items h
  · intro i item hget hbad hgood
    have := rankerScoresFromList_err 0 i items item hget hbad hgood
    simpa using this

/-- Witness for C8's amended statement: `[0.8, "0.5", true]` parses to
`[4/5, 1/2, 1]` (three scores, no length constraint), and
`[0.8, null, 0.5]` fails naming index 1 and the `null` value. -/
theorem ranker_scores_validation_witness :
    parseLlmRankerScoresOfList [PyJson.num (mkRat 8 10), PyJson.str "0.5", PyJson.bool true] =
      .ok [mkRat 4 5, mkRat 1 2, 1] ∧
    parseLlmRankerScoresOfList [PyJson.num (mkRat 8 10), PyJson.null, PyJson.num (mkRat 1 2)] =
      .error (.invalidScore 1 PyJson.null) := by
  constructor
  · have := (ranker_scores_validation
      [PyJson.num (mkRat 8 10), PyJson.str "0.5", PyJson.bool true]).1 (by decide)
    rw [this]
    decide
  · exact (ranker_scores_validation
      [PyJson.num (mkRat 8 10), PyJson.null, PyJson.num (mkRat 1 2)]).2 1 PyJson.null
      (by decide) (by decide)
      (fun j it hj hjget => by
        have hj0 : j = 0 := Nat.lt_one_iff.mp hj
        subst hj0
        simp only [List.get?] at hjget
        injection hjget with hh
        subst hh
        decide)

/-- C8 counterexample: the claim states a non-numeric element makes the
parser raise, but the JSON string element `"0.5"` is not a number and the
parser succeeds on `["0.5"]`, returning `[0.5]` (Python `float` coerces
numeric strings). -/
theorem ranker_scores_nonnumeric_counterexample :
    PyJson.isNumber (PyJson.str "0.5") = false ∧
    parseLlmRankerScoresOfList [PyJson.str "0.5"] = .ok [mkRat 1 2] := by
  decide

/-- Adding under an id leaves that id present in the store. -/
theorem storeAdd_mem (s : List (String × SaveEntry)) (id : String) (e : SaveEntry) :
    (storeAdd s id e).any (fun kv => kv.1 = id) = true := by
  unfold storeAdd
  cases hs : s.any (fun kv => kv.1 = id) with
  | true =>
    simp only [if_true]
    rw [List.any_map, List.any_eq_true]
    rw [List.any_eq_true] at hs
    obtain ⟨kv, hm, hk⟩ := hs
    refine ⟨kv, hm, ?_⟩
    simp only [decide_eq_true_eq] at hk
    simp [Function.comp, hk]
  | false =>
    simp only [Bool.false_eq_true, if_false]
    rw [List.any_append]
    simp

/-- Saving twice under the same key leaves the store as after one save. -/
theorem storeAdd_idem (s : List (String × SaveEntry)) (id : String) (e : SaveEntry) :
    storeAdd (storeAdd s id e) id e = storeAdd s id e := by
  have hmem := storeAdd_mem s id e
  conv_lhs => rw [storeAdd]
  rw [if_pos hmem]
  unfold storeAdd
  cases hs : s.any (fun kv => kv.1 = id) with
  | true =>
    simp only [if_true]
    rw [List.map_map]
    apply List.map_congr_left
    intro kv _
    by_cases hk : kv.1 = id <;> simp [Function.comp, hk]
  | false =>
    simp only [Bool.false_eq_true, if_false]
    rw [List.map_append]
    have hnone : ∀ kv ∈ s, kv.1 ≠ id := by
      intro kv hm
      rw [List.any_eq_false] at hs
      have := hs kv hm
      simpa using this
    have h1 : s.map (fun kv => if kv.1 = id then (id, e) else kv) = s := by
      conv_rhs => rw [← List.map_id s]
      apply List.map_congr_left
      intro kv hm
      simp [hnone kv hm]
    have h2 : [(id, e)].map (fun kv => if kv.1 = id then (id, e) else kv) = [(id, e)] := by
      simp
    rw [h1, h2]

/-- Fixture: a generated project whose autotest carries the placeholder. -/
def witProject : Project :=
  ⟨"# doc", "t", "g", "d", "i", "o", "s", "{STUDENT_SOLUTION}\nassert True"⟩

/-- Fixture: a passing validation report. -/
def witValid : ProjectValidationResult := ⟨true, []⟩

/-- Fixture: a failing validation report. -/
def witInvalid : ProjectValidationResult := ⟨false, []⟩

/-- Fixture: a failing execution result. -/
def witFailRes : SandboxResult := ⟨"", "Traceback", 1, false⟩

/-- Fixture: stage outcomes whose validator always passes and whose
sandbox always fails. -/
def witOracleValid : StageOutcomes :=
  ⟨witProject, fun _ => witValid, fun _ => witProject, fun _ => witFailRes,
   fun _ => witProject⟩

/-- Fixture: stage outcomes whose validator always fails. -/
def witOracleInvalid : StageOutcomes :=
  ⟨witProject, fun _ => witInvalid, fun _ => witProject, fun _ => witFailRes,
   fun _ => witProject⟩

/-- Fixture: two projects sharing a topic but with different
raw_source_text. -/
def cexProjA : Project := ⟨"# version one", "t", "g", "d", "i", "o", "s", "a"⟩

/-- Fixture: the second of the two projects. -/
def cexProjB : Project := ⟨"# version two", "t", "g", "d", "i", "o", "s", "a"⟩

/-- C3 (amended): an exercise is written to the retrieval store only if
the topic ends valid (project present and validation result a pass); the
save is keyed by the topic string alone (not by a content hash of
(topic, raw_source_text)); and under the port's keyed-replace store
semantics, saving the same (topic, project) twice leaves the store in
the same state as one save. -/
theorem save_only_if_valid_keyed_by_topic :
    (∀ (o : StageOutcomes) (n m : Nat) (t : String),
      (processTopicGenerationPath o n m t).saved = true →
        (processTopicGenerationPath o n m t).final.state.project.isSome = true ∧
        validPass (processTopicGenerationPath o n m t).final.state = true) ∧
    (∀ (t : String) (p : Project), ragSaveId t p = t) ∧
    (∀ (store : List (String × SaveEntry)) (t : String) (p : Project),
      ragSave (ragSave store t p) t p = ragSave store t p) := by
  refine ⟨?_, fun t p => rfl, fun store t p => storeAdd_idem store t (ragSaveEntry t p)⟩
  intro o n m t h
  simp only [processTopicGenerationPath, Bool.and_eq_true] at h ⊢
  exact h

/-- Witness for C3's amended statement: a run whose validator passes ends
saved with a present project and a passing validation result, the key of
a concrete save is its topic, and a repeated save is absorbed. -/
theorem save_only_if_valid_keyed_by_topic_witness :
    ((processTopicGenerationPath witOracleValid 3 3 "t").final.state.project.isSome = true ∧
      validPass (processTopicGenerationPath witOracleValid 3 3 "t").final.state = true) ∧
    ragSaveId "t" cexProjA = "t" ∧
    ragSave (ragSave [] "t" cexProjA) "t" cexProjA = ragSave [] "t" cexProjA :=
  ⟨save_only_if_valid_keyed_by_topic.1 witOracleValid 3 3 "t" (by decide),
   save_only_if_valid_keyed_by_topic.2.1 "t" cexProjA,
   save_only_if_valid_keyed_by_topic.2.2 [] "t" cexProjA⟩

/-- C3 counterexample: the save key ignores raw_source_text — two
documents with the same topic but different raw_source_text receive the
same store key, so the keying is not a content hash of
(topic, raw_source_text). -/
theorem save_key_not_content_hash : ¬ isContentHashKeyed ragSaveId := by
  intro h
  have hsame := (h "t" "t" cexProjA cexProjB).mp rfl
  exact absurd hsame.2 (by decide)

/-- When every validator report is a failure, each round of the
validate/correct loop stores the next report and replaces the project
with the next correction, using up all its fuel. -/
theorem validateCorrectLoop_all_invalid (o : StageOutcomes) (prev : Project)
    (hv : ∀ k, (o.vOut k).is_valid = false) :
    ∀ (fuel : Nat) (t : String) (p : Project) (vr : Option ProjectValidationResult)
      (er : Option SandboxResult) (vc cc ec bc : Nat),
      validateCorrectLoop o prev (fuel + 1) ⟨⟨t, some p, vr, er⟩, vc, cc, ec, bc⟩ =
        ⟨⟨t, some (o.cOut (cc + fuel)), some (o.vOut (vc + fuel)), er⟩,
         vc + fuel + 1, cc + fuel + 1, ec, bc⟩ := by
  intro fuel
  induction fuel with
  | zero =>
    intro t p vr er vc cc ec bc
    simp [validateCorrectLoop, validatorTransform, correctorTransform, needsCorrection, hv]
  | succ f ih =>
    intro t p vr er vc cc ec bc
    show validateCorrectLoop o prev (f + 1 + 1) _ = _
    conv_lhs => rw [validateCorrectLoop]
    simp only [validatorTransform, correctorTransform, needsCorrection, hv,
      Bool.not_false, if_true, Option.isNone_some, Bool.false_eq_true, if_false]
    rw [ih t (o.cOut cc) (some (o.vOut vc)) er (vc + 1) (cc + 1) ec bc]
    have h1 : cc + 1 + f = cc + (f + 1) := by omega
    have h2 : vc + 1 + f = vc + (f + 1) := by omega
    rw [h1, h2]

/-- C1: if every validator verdict in the run is a failure (every
correction round fails and the final post-loop validation also fails),
`process_topic` ends with the pre-loop snapshot (the freshly generated
project) as the returned project and with the validation result cleared;
no in-flight corrected draft survives, nothing is executed, and nothing
is persisted. -/
theorem rollback_to_preloop_snapshot (o : StageOutcomes) (N M : Nat) (t : String)
    (hv : ∀ k, (o.vOut k).is_valid = false) :
    processTopicGenerationPath o N M t =
      ⟨⟨⟨t, some o.genOut, none, none⟩, N + 1, N, 0, 0⟩, false⟩ := by
  cases N with
  | zero =>
    simp [processTopicGenerationPath, validateCorrectLoop, finalValidationPhase,
      validatorTransform, validPass, hv]
  | succ n =>
    simp only [processTopicGenerationPath]
    rw [validateCorrectLoop_all_invalid o o.genOut hv n t o.genOut none none 0 0 0 0]
    simp [finalValidationPhase, validatorTransform, validPass, hv]

/-- Witness for C1 at the default bound 3 with an always-failing
validator: the run ends at the generated snapshot with the validation
result cleared, unsaved. -/
theorem rollback_to_preloop_snapshot_witness :
    processTopicGenerationPath witOracleInvalid 3 3 "t" =
      ⟨⟨⟨"t", some witProject, none, none⟩, 4, 3, 0, 0⟩, false⟩ :=
  rollback_to_preloop_snapshot witOracleInvalid 3 3 "t" (fun _ => rfl)

/-- The working project after `j` bug-fix rounds: the generated document,
then the successive bug-fixed documents. -/
def projAt (o : StageOutcomes) : Nat → Project
  | 0 => o.genOut
  | k + 1 => o.bOut k

/-- The pipeline state after a first-round validation pass, the initial
autotest run, and `j` completed (still-failing) bug-fix rounds. -/
def bugFixChainSt (o : StageOutcomes) (t : String) (j : Nat) : PipelineSt :=
  ⟨⟨t, some (projAt o j), some (o.vOut 0), some (o.eOut j)⟩, 1, 0, j + 1, j⟩

/-- With every sandbox run failing and every bug-fixed autotest carrying
the placeholder, each round of the bug-fix loop replaces the project and
re-runs the autotest, using up all its fuel. -/
theorem bugFixLoop_all_failing (o : StageOutcomes) (t : String)
    (he : ∀ k, (o.eOut k).exit_code ≠ 0 ∨ (o.eOut k).timed_out = true)
    (hb : ∀ k, containsSub (o.bOut k).autotest placeholderToken = true) :
    ∀ (m j : Nat), bugFixLoop o m (bugFixChainSt o t j) = bugFixChainSt o t (j + m) := by
  have hef : ∀ k, ((o.eOut k).exit_code ≠ 0 || (o.eOut k).timed_out) = true := by
    intro k
    rcases he k with h | h <;> simp [h]
  have hep : ∀ k, ((o.eOut k).exit_code = 0 && !(o.eOut k).timed_out) = false := by
    intro k
    rcases he k with h | h <;> simp [h]
  intro m
  induction m with
  | zero => intro j; rfl
  | succ m ih =>
    intro j
    conv_lhs => rw [bugFixLoop]
    have h1 : execFailing (bugFixChainSt o t j).state = true := by
      simp only [bugFixChainSt, execFailing]
      exact hef j
    rw [if_pos h1]
    have h2 : checkAutotestTransform o (bugFixerTransform o (bugFixChainSt o t j)) =
        bugFixChainSt o t (j + 1) := by
      simp only [bugFixChainSt, bugFixerTransform, checkAutotestTransform, hep,
        Bool.false_eq_true, if_false, hb, Bool.not_true]
      rfl
    have h3 : execPassing (bugFixChainSt o t (j + 1)).state = false := by
      simp only [bugFixChainSt, execPassing]
      exact hep (j + 1)
    simp only [h2, h3, Bool.false_eq_true, if_false]
    rw [ih (j + 1)]
    have : j + 1 + m = j + (m + 1) := by omega
    rw [this]

/-- C2: when the first validation passes (so the topic enters the
autotest/bug-fix phase) and every sandbox run fails, the bug-fix loop
exhausts its bound, the pipeline keeps the last bug-fixed project
together with its last failing execution result, and the topic is
persisted anyway: the persist decision reads only the project presence
and the validation verdict, never the execution result. -/
theorem failing_autotest_still_persisted (o : StageOutcomes) (n M : Nat) (t : String)
    (hv : (o.vOut 0).is_valid = true)
    (he : ∀ k, (o.eOut k).exit_code ≠ 0 ∨ (o.eOut k).timed_out = true)
    (hg : containsSub o.genOut.autotest placeholderToken = true)
    (hb : ∀ k, containsSub (o.bOut k).autotest placeholderToken = true) :
    processTopicGenerationPath o (n + 1) M t = ⟨bugFixChainSt o t M, true⟩ ∧
    ((o.eOut M).exit_code ≠ 0 ∨ (o.eOut M).timed_out = true) ∧
    (∀ (o₂ : StageOutcomes) (n₂ m₂ : Nat) (t₂ : String),
      (processTopicGenerationPath o₂ n₂ m₂ t₂).saved =
        ((processTopicGenerationPath o₂ n₂ m₂ t₂).final.state.project.isSome &&
          validPass (processTopicGenerationPath o₂ n₂ m₂ t₂).final.state)) := by
  refine ⟨?_, he M, fun o₂ n₂ m₂ t₂ => rfl⟩
  simp only [processTopicGenerationPath]
  have hloop : validateCorrectLoop o o.genOut (n + 1)
      ⟨⟨t, some o.genOut, none, none⟩, 0, 0, 0, 0⟩ =
      ⟨⟨t, some o.genOut, some (o.vOut 0), none⟩, 1, 0, 0, 0⟩ := by
    rw [validateCorrectLoop]
    simp [validatorTransform, needsCorrection, hv]
  rw [hloop]
  have hfinal : finalValidationPhase o o.genOut
      ⟨⟨t, some o.genOut, some (o.vOut 0), none⟩, 1, 0, 0, 0⟩ =
      ⟨⟨t, some o.genOut, some (o.vOut 0), none⟩, 1, 0, 0, 0⟩ := by
    simp [finalValidationPhase, validPass, hv]
  rw [hfinal]
  have hgate : (((⟨⟨t, some o.genOut, some (o.vOut 0), none⟩, 1, 0, 0, 0⟩ : PipelineSt)
      |>.state.project.isSome) &&
      validPass (⟨⟨t, some o.genOut, some (o.vOut 0), none⟩, 1, 0, 0, 0⟩ : PipelineSt).state)
      = true := by
    simp only [Bool.and_eq_true]
    exact ⟨rfl, by simp [validPass, hv]⟩
  rw [if_pos hgate]
  have hcheck : checkAutotestTransform o
      ⟨⟨t, some o.genOut, some (o.vOut 0), none⟩, 1, 0, 0, 0⟩ = bugFixChainSt o t 0 := by
    simp only [checkAutotestTransform, hg, Bool.not_true, Bool.false_eq_true, if_false]
    rfl
  rw [hcheck, bugFixLoop_all_failing o t he hb M 0]
  have hM : 0 + M = M := by omega
  rw [hM]
  have hsaved : ((bugFixChainSt o t M).state.project.isSome &&
      validPass (bugFixChainSt o t M).state) = true := by
    simp only [Bool.and_eq_true]
    exact ⟨rfl, by simp [bugFixChainSt, validPass, hv]⟩
  rw [hsaved]

/-- Witness for C2 at the default bound 3 with a first-pass validator and
an always-failing sandbox: the run ends at the third bug-fixed project
with the fourth failing execution result, saved. -/
theorem failing_autotest_still_persisted_witness :
    processTopicGenerationPath witOracleValid 3 3 "t" = ⟨bugFixChainSt witOracleValid "t" 3, true⟩ ∧
    ((witOracleValid.eOut 3).exit_code ≠ 0 ∨ (witOracleValid.eOut 3).timed_out = true) :=
  ⟨(failing_autotest_still_persisted witOracleValid 2 3 "t" rfl
      (fun _ => Or.inl (by show (1 : Int) ≠ 0; decide))
      (by decide)
      (fun _ => by show containsSub witProject.autotest placeholderToken = true; decide)).1,
   Or.inl (by show (1 : Int) ≠ 0; decide)⟩

/-- Whether an `Except` is a success. -/
def exceptOk {ε α : Type} : Except ε α → Bool
  | .ok _ => true
  | .error _ => false

/-- The error carried by a failed parse (`""` for a success; only ever
read on failures). -/
def lastErrOf : Except String Project → String
  | .error e => e
  | .ok _ => ""

theorem exceptOk_false_iff {ε α : Type} (x : Except ε α) :
    exceptOk x = false ↔ ∃ e, x = .error e := by
  cases x <;> simp [exceptOk]

theorem exceptOk_true_iff {ε α : Type} (x : Except ε α) :
    exceptOk x = true ↔ ∃ a, x = .ok a := by
  cases x <;> simp [exceptOk]

/-- C4: the generation stage's retry wrapper makes at most 3 model calls;
when the first `k` replies fail to parse and reply `k+1` parses, it
returns that parsed result after `k+1` calls, its running message list
being the initial prompt followed by one (assistant reply, corrective
instruction) pair per failure; and when all 3 replies fail to parse it
re-raises the last parse error after exactly 3 calls. -/
theorem generation_retry_bounded (parse : String → Except String Project)
    (replies : Nat → String) (initPrompt : List ChatMsg) :
    (genTransform parse replies initPrompt).calls ≤ 3 ∧
    (∀ k, k < 3 → (∀ j, j < k → exceptOk (parse (replies j)) = false) →
      exceptOk (parse (replies k)) = true →
      genTransform parse replies initPrompt =
        ⟨parse (replies k), initPrompt ++ genFollowUps parse replies k, k + 1⟩) ∧
    ((∀ j, j < 3 → exceptOk (parse (replies j)) = false) →
      genTransform parse replies initPrompt =
        ⟨.error (lastErrOf (parse (replies 2))), initPrompt ++ genFollowUps parse replies 3, 3⟩) := by
  refine ⟨?_, ?_, ?_⟩
  · rcases h0 : parse (replies 0) with e0 | p0
    · rcases h1 : parse (replies 1) with e1 | p1
      · rcases h2 : parse (replies 2) with e2 | p2 <;>
          simp [genTransform, genRetryLoop, h0, h1, h2]
      · simp [genTransform, genRetryLoop, h0, h1]
    · simp [genTransform, genRetryLoop, h0]
  · intro k hk hprev hok
    interval_cases k
    · obtain ⟨p, hp⟩ := (exceptOk_true_iff _).mp hok
      simp [genTransform, genRetryLoop, hp, genFollowUps]
    · obtain ⟨e0, he0⟩ := (exceptOk_false_iff _).mp (hprev 0 (by omega))
      obtain ⟨p, hp⟩ := (exceptOk_true_iff _).mp hok
      simp [genTransform, genRetryLoop, he0, hp, genFollowUps,
        List.range_succ, List.range_zero]
    · obtain ⟨e0, he0⟩ := (exceptOk_false_iff _).mp (hprev 0 (by omega))
      obtain ⟨e1, he1⟩ := (exceptOk_false_iff _).mp (hprev 1 (by omega))
      obtain ⟨p, hp⟩ := (exceptOk_true_iff _).mp hok
      simp [genTransform, genRetryLoop, he0, he1, hp, genFollowUps,
        List.range_succ, List.range_zero]
  · intro hall
    obtain ⟨e0, he0⟩ := (exceptOk_false_iff _).mp (hall 0 (by omega))
    obtain ⟨e1, he1⟩ := (exceptOk_false_iff _).mp (hall 1 (by omega))
    obtain ⟨e2, he2⟩ := (exceptOk_false_iff _).mp (hall 2 (by omega))
    simp [genTransform, genRetryLoop, he0, he1, he2, lastErrOf, genFollowUps,
      List.range_succ, List.range_zero]

/-- Fixture: scenario C's reply stream — the first two replies fail to
parse, the third parses. -/
def witReplies : Nat → String :=
  fun k => if k = 2 then "good" else "bad"

/-- Fixture: a parser accepting exactly the reply `"good"`. -/
def witParse : String → Except String Project :=
  fun s => if s = "good" then .ok witProject else .error "Missing required sections"

/-- Witness for C4, scenario C: two parse failures then a success — the
stage returns the third parse on attempt 3 after appending two
(reply, corrective instruction) pairs. -/
theorem generation_retry_bounded_witness :
    genTransform witParse witReplies [] =
      ⟨witParse (witReplies 2), [] ++ genFollowUps witParse witReplies 2, 3⟩ :=
  (generation_retry_bounded witParse witReplies []).2.1 2 (by omega)
    (fun j hj => by
      interval_cases j <;> decide)
    (by decide)

theorem appendContent_sections (st : MdScanState) (line : String) :
    (appendContent st line).sections = st.sections := by
  unfold appendContent
  split <;> rfl

theorem appendContent_currentHeader (st : MdScanState) (line : String) :
    (appendContent st line).currentHeader = st.currentHeader := by
  unfold appendContent
  split <;> rfl

theorem head?_dropWhile_not (p : String → Bool) (l : List String) (x : String)
    (h : (l.dropWhile p).head? = some x) : p x = false := by
  induction l with
  | nil => simp at h
  | cons a l ih =>
    rw [List.dropWhile_cons] at h
    by_cases hp : p a = true
    · rw [if_pos hp] at h
      exact ih h
    · rw [if_neg hp] at h
      simp at h
      subst h
      exact Bool.not_eq_true _ ▸ (by simpa using hp)

theorem prefixHeadEq {l₁ l₂ : List String} (h : l₁ <+: l₂) (x : String)
    (hx : l₁.head? = some x) : l₂.head? = some x := by
  obtain ⟨t, rfl⟩ := h
  cases l₁ with
  | nil => simp at hx
  | cons a l => simpa using hx

theorem trimBlankEnds_trims (ls : List String) :
    trimBlankEnds ls <:+: ls ∧
    (∀ h, (trimBlankEnds ls).head? = some h → isBlankLine h = false) ∧
    (∀ t, (trimBlankEnds ls).getLast? = some t → isBlankLine t = false) := by
  unfold trimBlankEnds
  set d := ls.dropWhile isBlankLine with hd
  have hsuffix : d <:+ ls := List.dropWhile_suffix isBlankLine
  have hpre : ((d.reverse.dropWhile isBlankLine).reverse : List String) <+: d := by
    have h0 : (d.reverse.dropWhile isBlankLine).reverse <+: d.reverse.reverse :=
      List.reverse_prefix.mpr (List.dropWhile_suffix isBlankLine)
    rwa [List.reverse_reverse] at h0
  refine ⟨hpre.isInfix.trans hsuffix.isInfix, ?_, ?_⟩
  · intro h hh
    have hd2 := prefixHeadEq hpre h hh
    exact head?_dropWhile_not isBlankLine ls h hd2
  · intro t ht
    rw [List.getLast?_reverse] at ht
    exact head?_dropWhile_not isBlankLine d.reverse t ht

/-- Every section body `parse_markdown_headers` emits is the
newline-join of a blank-trimmed line list. -/
theorem sections_bodies_trimmed (text : String) :
    ∀ hc ∈ parseMarkdownHeaders text,
      ∃ ls, hc.2 = String.intercalate "\n" (trimBlankEnds ls) := by
  have hstep : ∀ (st : MdScanState) (line : String),
      (∀ hc ∈ st.sections, ∃ ls, hc.2 = String.intercalate "\n" (trimBlankEnds ls)) →
      ∀ hc ∈ (mdStep st line).sections, ∃ ls, hc.2 = String.intercalate "\n" (trimBlankEnds ls) := by
    intro st line hst hc hmem
    have hflush : ∀ (s : MdScanState),
        (∀ hc ∈ s.sections, ∃ ls, hc.2 = String.intercalate "\n" (trimBlankEnds ls)) →
        ∀ hc ∈ (flushSection s).sections,
          ∃ ls, hc.2 = String.intercalate "\n" (trimBlankEnds ls) := by
      intro s hs hc hmem
      unfold flushSection at hmem
      cases hh : s.currentHeader with
      | none => rw [hh] at hmem; exact hs hc hmem
      | some h =>
        rw [hh] at hmem
        simp only [List.mem_append, List.mem_singleton] at hmem
        rcases hmem with hmem | hmem
        · exact hs hc hmem
        · exact ⟨s.content, by rw [hmem]⟩
    unfold mdStep at hmem
    rcases hfm : matchFence line with _ | fm <;> rw [hfm] at hmem
    · by_cases hif : st.inFence
      · rw [if_pos hif] at hmem
        rw [appendContent_sections] at hmem
        exact hst hc hmem
      · rw [if_neg hif] at hmem
        rcases hmh : matchHeader line with _ | g2 <;> rw [hmh] at hmem
        · rw [appendContent_sections] at hmem
          exact hst hc hmem
        · simp only at hmem
          exact hflush st hst hc hmem
    · by_cases hif : st.inFence
      · simp only [hif, Bool.not_true, Bool.false_eq_true, if_false] at hmem
        by_cases hcl : fm.char = st.fenceChar ∧ fm.count ≥ st.fenceLen
        · rw [if_pos (by simp [hcl.1, hcl.2])] at hmem
          rw [appendContent_sections] at hmem
          exact hst hc hmem
        · rw [if_neg (by
            intro hx
            simp only [Bool.and_eq_true, decide_eq_true_eq] at hx
            exact hcl ⟨hx.1, hx.2⟩)] at hmem
          rw [appendContent_sections] at hmem
          exact hst hc hmem
      · simp only [hif, Bool.not_false, if_true] at hmem
        rw [appendContent_sections] at hmem
        exact hst hc hmem
  unfold parseMarkdownHeaders
  by_cases hempty : text = ""
  · simp [hempty]
  · rw [if_neg hempty]
    have hfold : ∀ (lines : List String) (st : MdScanState),
        (∀ hc ∈ st.sections, ∃ ls, hc.2 = String.intercalate "\n" (trimBlankEnds ls)) →
        ∀ hc ∈ (lines.foldl mdStep st).sections,
          ∃ ls, hc.2 = String.intercalate "\n" (trimBlankEnds ls) := by
      intro lines
      induction lines with
      | nil => intro st hst; exact hst
      | cons l rest ih =>
        intro st hst
        exact ih (mdStep st l) (hstep st l hst)
    intro hc hmem
    unfold flushSection at hmem
    cases hh : ((pySplitLines text).foldl mdStep initMdState).currentHeader with
    | none =>
      rw [hh] at hmem
      exact hfold (pySplitLines text) initMdState (by simp [initMdState]) hc hmem
    | some h =>
      rw [hh] at hmem
      simp only [List.mem_append, List.mem_singleton] at hmem
      rcases hmem with hmem | hmem
      · exact hfold (pySplitLines text) initMdState (by simp [initMdState]) hc hmem
      · exact ⟨((pySplitLines text).foldl mdStep initMdState).content, by rw [hmem]⟩

/-- C5: while the scanner is inside an open code fence no line — fence-
looking or not — adds a section or installs a header (headers inside
fences are never reported); processing any line only ever appends to the
section list, so sections come out in document order; and every reported
body is the newline-join of a line list trimmed of leading and trailing
blank lines only (the trimmed list is an infix of the original with
non-blank first and last lines). -/
theorem fenced_headers_never_reported :
    (∀ (st : MdScanState) (line : String), st.inFence = true →
      (mdStep st line).sections = st.sections ∧
      (mdStep st line).currentHeader = st.currentHeader) ∧
    (∀ (st : MdScanState) (line : String),
      ∃ suffix, (mdStep st line).sections = st.sections ++ suffix) ∧
    (∀ (text : String), ∀ hc ∈ parseMarkdownHeaders text,
      ∃ ls, hc.2 = String.intercalate "\n" (trimBlankEnds ls)) ∧
    (∀ ls : List String, trimBlankEnds ls <:+: ls ∧
      (∀ h, (trimBlankEnds ls).head? = some h → isBlankLine h = false) ∧
      (∀ t, (trimBlankEnds ls).getLast? = some t → isBlankLine t = false)) := by
  refine ⟨?_, ?_, sections_bodies_trimmed, trimBlankEnds_trims⟩
  · intro st line hif
    unfold mdStep
    rcases hfm : matchFence line with _ | fm
    · rw [hif]
      simp only [if_true]
      exact ⟨appendContent_sections st line, appendContent_currentHeader st line⟩
    · rw [hif]
      simp only [Bool.not_true, Bool.false_eq_true, if_false]
      split
      · constructor
        · show ({ appendContent st line with
            inFence := false, fenceChar := ' ', fenceLen := 0 }).sections = st.sections
          rw [appendContent_sections]
        · show ({ appendContent st line with
            inFence := false, fenceChar := ' ', fenceLen := 0 }).currentHeader = st.currentHeader
          rw [appendContent_currentHeader]
      · exact ⟨appendContent_sections st line, appendContent_currentHeader st line⟩
  · intro st line
    unfold mdStep
    rcases hfm : matchFence line with _ | fm
    · by_cases hif : st.inFence
      · rw [hif]
        simp only [if_true]
        exact ⟨[], by rw [appendContent_sections, List.append_nil]⟩
      · simp only [hif, Bool.false_eq_true, if_false]
        rcases hmh : matchHeader line with _ | g2
        · exact ⟨[], by rw [appendContent_sections, List.append_nil]⟩
        · simp only
          unfold flushSection
          cases hh : st.currentHeader with
          | none => exact ⟨[], by simp⟩
          | some h =>
            exact ⟨[(h, String.intercalate "\n" (trimBlankEnds st.content))], by simp⟩
    · by_cases hif : st.inFence
      · simp only [hif, Bool.not_true, Bool.false_eq_true, if_false]
        split
        · exact ⟨[], by
            show ({ appendContent st line with
              inFence := false, fenceChar := ' ', fenceLen := 0 }).sections = _
            rw [appendContent_sections, List.append_nil]⟩
        · exact ⟨[], by rw [appendContent_sections, List.append_nil]⟩
      · simp only [hif, Bool.not_false, if_true]
        exact ⟨[], by
          show ({ appendContent st line with
            inFence := true, fenceChar := fm.char, fenceLen := fm.count }).sections = _
          rw [appendContent_sections, List.append_nil]⟩

/-- Witness for C5: with a fence open (three backticks), the header-like
line `"# X"` adds no section and installs no header. -/
theorem fenced_headers_never_reported_witness :
    (mdStep ⟨[("A", "a")], none, [], true, '`', 3⟩ "# X").sections = [("A", "a")] ∧
    (mdStep ⟨[("A", "a")], none, [], true, '`', 3⟩ "# X").currentHeader = none :=
  fenced_headers_never_reported.1 ⟨[("A", "a")], none, [], true, '`', 3⟩ "# X" rfl

/-- C7 (amended): with exactly one fenced block, the extraction returns
the inner content (markers stripped, trimmed) only when the block's
language is markdown/md or no non-blank text lies outside the block;
with one embedded block surrounded by other non-blank text, and with
zero or several blocks, it returns the whole text with all fence markers
stripped and trimmed. -/
theorem expected_output_extraction (raw : String) (hne : raw ≠ "") :
    (scanBlocks (pySplitLines raw) = [] →
      extractExpectedOutput raw = stripAllFencedCodeMarkers raw) ∧
    (∀ bStart bEnd bLang, scanBlocks (pySplitLines raw) = [(bStart, bEnd, bLang)] →
      ((isMarkdownLang bLang ||
          !((pySplitLines raw).take bStart ++ (pySplitLines raw).drop (bEnd + 1)).any
            (fun l => !isBlankLine l)) = true →
        extractExpectedOutput raw =
          stripAllFencedCodeMarkers
            (String.intercalate "\n"
              (((pySplitLines raw).drop (bStart + 1)).take (bEnd - (bStart + 1))))) ∧
      ((isMarkdownLang bLang ||
          !((pySplitLines raw).take bStart ++ (pySplitLines raw).drop (bEnd + 1)).any
            (fun l => !isBlankLine l)) = false →
        extractExpectedOutput raw = stripAllFencedCodeMarkers raw)) ∧
    (∀ b₁ b₂ rest, scanBlocks (pySplitLines raw) = b₁ :: b₂ :: rest →
      extractExpectedOutput raw = stripAllFencedCodeMarkers raw) := by
  refine ⟨?_, ?_, ?_⟩
  · intro hscan
    simp only [extractExpectedOutput, if_neg hne, hscan]
  · intro bStart bEnd bLang hscan
    constructor
    · intro hcond
      simp only [extractExpectedOutput, if_neg hne, hscan, hcond, if_true]
    · intro hcond
      simp only [extractExpectedOutput, if_neg hne, hscan, hcond,
        Bool.false_eq_true, if_false]
  · intro b₁ b₂ rest hscan
    simp only [extractExpectedOutput, if_neg hne, hscan]

/-- Witness for C7's amended statement at `"```js\ncall()\n```"`: one
block, nothing outside, inner content returned. -/
theorem expected_output_extraction_witness :
    extractExpectedOutput "```js\ncall()\n```" =
      stripAllFencedCodeMarkers
        (String.intercalate "\n"
          (((pySplitLines "```js\ncall()\n```").drop 1).take 1)) :=
  ((expected_output_extraction "```js\ncall()\n```" (by decide)).2.1 0 2 (some "js")
    (by decide)).1 (by decide)

/-- C7 counterexample: `"prelude\n```\nx\n```"` contains exactly one
fenced block whose inner content is `"x"`, yet the extraction returns
`"prelude\nx"` (the whole text with markers stripped), because non-blank
text precedes the block. -/
theorem expected_output_sole_block_counterexample :
    scanBlocks (pySplitLines "prelude\n```\nx\n```") = [(1, 3, none)] ∧
    String.intercalate "\n" (((pySplitLines "prelude\n```\nx\n```").drop 2).take 1) = "x" ∧
    extractExpectedOutput "prelude\n```\nx\n```" = "prelude\nx" ∧
    ("prelude\nx" : String) ≠ "x" := by
  refine ⟨by decide, by decide, by decide, by decide⟩

theorem allWs_of_stripChars_nil : ∀ cs : List Char, pyStripChars cs = [] →
    ∀ c ∈ cs, pyIsWs c = true := by
  intro cs h c hc
  unfold pyStripChars at h
  have h1 : (cs.dropWhile pyIsWs).reverse.dropWhile pyIsWs = [] := by
    have := congrArg List.reverse h
    rwa [List.reverse_reverse, List.reverse_nil] at this
  rw [List.dropWhile_eq_nil_iff] at h1
  have h2 : ∀ x ∈ cs.dropWhile pyIsWs, pyIsWs x = true := by
    intro x hx
    exact h1 x (List.mem_reverse.mpr hx)
  have hsplit := List.takeWhile_append_dropWhile (p := pyIsWs) (l := cs)
  rw [← hsplit] at hc
  rcases List.mem_append.mp hc with hm | hm
  · exact List.mem_takeWhile_imp hm
  · exact h2 c hm

theorem pySplitLinesGo_chars (cs : List Char) : ∀ (prevCR : Bool) (acc : List Char)
    (l : String), l ∈ pySplitLinesGo prevCR cs acc → ∀ c ∈ l.data, c ∈ cs ∨ c ∈ acc := by
  induction cs with
  | nil =>
    intro prevCR acc l hl c hc
    unfold pySplitLinesGo at hl
    split at hl
    · simp at hl
    · simp only [List.mem_singleton] at hl
      subst hl
      right
      exact List.mem_reverse.mp hc
  | cons c0 rest ih =>
    intro prevCR acc l hl c hc
    unfold pySplitLinesGo at hl
    split at hl
    · rcases ih false acc l hl c hc with h | h
      · left; exact List.mem_cons_of_mem _ h
      · right; exact h
    · split at hl
      · rcases List.mem_cons.mp hl with hl | hl
        · subst hl
          right
          exact List.mem_reverse.mp hc
        · rcases ih true [] l hl c hc with h | h
          · left; exact List.mem_cons_of_mem _ h
          · simp at h
      · split at hl
        · rcases List.mem_cons.mp hl with hl | hl
          · subst hl
            right
            exact List.mem_reverse.mp hc
          · rcases ih false [] l hl c hc with h | h
            · left; exact List.mem_cons_of_mem _ h
            · simp at h
        · rcases ih false (c0 :: acc) l hl c hc with h | h
          · left; exact List.mem_cons_of_mem _ h
          · rcases List.mem_cons.mp h with h | h
            · left; subst h; exact List.mem_cons_self _ _
            · right; exact h

/-- Every character of every line of `pySplitLines s` is a character of
`s`. -/
theorem pySplitLines_chars (s : String) (l : String) (hl : l ∈ pySplitLines s) :
    ∀ c ∈ l.data, c ∈ s.data := by
  intro c hc
  rcases pySplitLinesGo_chars s.data false [] l hl c hc with h | h
  · exact h
  · simp at h

theorem matchFence_of_blank (l : String) (h : isBlankLine l = true) :
    matchFence l = none := by
  unfold matchFence
  unfold isBlankLine at h
  rw [List.all_eq_true] at h
  have hd : l.data.dropWhile pyIsWs = [] :=
    List.dropWhile_eq_nil_iff.mpr (fun x hx => by simpa using h x hx)
  rw [hd]
  rfl

theorem matchHeader_of_blank (l : String) (h : isBlankLine l = true) :
    matchHeader l = none := by
  simp only [matchHeader]
  unfold isBlankLine at h
  rw [List.all_eq_true] at h
  have hd : l.data.dropWhile pyIsWs = [] :=
    List.dropWhile_eq_nil_iff.mpr (fun x hx => by simpa using h x hx)
  by_cases h4 : (l.data.takeWhile pyIsWs).length > 3
  · simp [h4]
  · rw [hd, if_neg h4]
    rfl

theorem mdStep_blank_init (l : String) (h : isBlankLine l = true) :
    mdStep initMdState l = initMdState := by
  unfold mdStep
  rw [matchFence_of_blank l h]
  simp only [initMdState]
  rw [matchHeader_of_blank l h]
  rfl

/-- A whitespace-only document yields no sections. -/
theorem parseMarkdownHeaders_of_strip_nil (text : String)
    (h : pyStrip text = "") : parseMarkdownHeaders text = [] := by
  unfold parseMarkdownHeaders
  by_cases hempty : text = ""
  · simp [hempty]
  · rw [if_neg hempty]
    have hws : ∀ c ∈ text.data, pyIsWs c = true := by
      apply allWs_of_stripChars_nil
      unfold pyStrip at h
      have := congrArg String.data h
      exact this
    have hblank : ∀ l ∈ pySplitLines text, isBlankLine l = true := by
      intro l hl
      unfold isBlankLine
      rw [List.all_eq_true]
      intro c hc
      exact hws c (pySplitLines_chars text l hl c hc)
    have hfold : (pySplitLines text).foldl mdStep initMdState = initMdState := by
      have : ∀ (ls : List String), (∀ l ∈ ls, isBlankLine l = true) →
          ls.foldl mdStep initMdState = initMdState := by
        intro ls
        induction ls with
        | nil => intro _; rfl
        | cons l rest ih =>
          intro hall
          rw [List.foldl_cons, mdStep_blank_init l (hall l (List.mem_cons_self l rest))]
          exact ih (fun x hx => hall x (List.mem_cons_of_mem l hx))
      exact this (pySplitLines text) hblank
    rw [hfold]
    rfl

/-- On success, the parsed document's raw_markdown field is exactly the
preprocessed source text. -/
theorem projectFromPreprocessed_raw_markdown (pre : String) (p : Project)
    (h : projectFromPreprocessed pre = .ok p) : p.raw_markdown = pre := by
  simp only [projectFromPreprocessed] at h
  split at h
  · exact absurd h (by simp)
  · split at h
    · exact absurd h (by simp)
    · split at h
      · exact absurd h (by simp)
      · split at h
        · exact absurd h (by simp)
        · split at h
          · exact absurd h (by simp)
          · split at h
            · exact absurd h (by simp)
            · injection h with hh
              rw [← hh]

/-- On success, the preprocessed source text is not whitespace-only. -/
theorem projectFromPreprocessed_strip_ne (pre : String) (p : Project)
    (h : projectFromPreprocessed pre = .ok p) : ¬(pyStrip pre = "") := by
  intro hstrip
  have hsec := parseMarkdownHeaders_of_strip_nil pre hstrip
  simp only [projectFromPreprocessed, hsec, List.isEmpty_nil, if_true] at h
  exact Except.noConfusion h

/-- C6 (amended): re-parsing a successfully parsed document's
raw_source_text yields a field-for-field identical document, provided the
stored raw_source_text is a fixpoint of the two preprocessing steps (the
outer-fence unwrap and the conversational-text strip leave it
unchanged). -/
theorem reparse_identical_on_fixpoint (raw : String) (p : Project)
    (h : parseProjectMarkdown raw = .ok p)
    (hu : unwrapOuterMarkdownBlock p.raw_markdown = p.raw_markdown)
    (hs : stripConversationalText p.raw_markdown = p.raw_markdown) :
    parseProjectMarkdown p.raw_markdown = .ok p := by
  unfold parseProjectMarkdown at h
  split at h
  · exact absurd h (by simp)
  · have hraw : p.raw_markdown = stripConversationalText (unwrapOuterMarkdownBlock raw) :=
      projectFromPreprocessed_raw_markdown _ _ h
    rw [← hraw] at h
    unfold parseProjectMarkdown
    split
    · next hcond =>
      exfalso
      apply projectFromPreprocessed_strip_ne _ _ h
      simp only [Bool.or_eq_true, decide_eq_true_eq] at hcond
      rcases hcond with hcond | hcond
      · rw [hcond]; rfl
      · exact hcond
    · rw [hu, hs]
      exact h

/-- Fixture: a minimal well-formed project document (no trailing blank
line — a fixpoint of the preprocessing). -/
def c6base : String :=
  "# Микропроект для углубления темы: X\n## Цель микропроекта\ng\n## Описание микропроекта\nd\n## Входные данные\ni\n## Ожидаемый результат\no\n## Эталонное решение\n```\ns\n```\n## Автотест\n```python\nt\n```"

/-- Fixture: the document parsed from `c6base`. -/
def c6projFix : Project := ⟨c6base, "X", "g", "d", "i", "o", "s", "t"⟩

/-- Witness for C6's amended statement: a well-formed document that is a
preprocessing fixpoint re-parses to the identical document. -/
theorem reparse_identical_on_fixpoint_witness :
    parseProjectMarkdown c6projFix.raw_markdown = .ok c6projFix :=
  reparse_identical_on_fixpoint c6base c6projFix (by decide) (by decide) (by decide)

/-- C6 counterexample: the same document followed by one blank line
parses successfully, but its stored raw_source_text re-parses to a
document whose raw_markdown differs (the conversational-text strip
re-joins the lines and drops the trailing newline), so re-parsing is not
field-for-field identical. -/
theorem reparse_not_identical_counterexample :
    parseProjectMarkdown (c6base ++ "\n\n") =
      .ok ⟨c6base ++ "\n", "X", "g", "d", "i", "o", "s", "t"⟩ ∧
    parseProjectMarkdown (c6base ++ "\n") = .ok ⟨c6base, "X", "g", "d", "i", "o", "s", "t"⟩ ∧
    (c6base ++ "\n" : String) ≠ c6base := by
  refine ⟨by decide, by decide, by decide⟩

/-! ## Fidelity checks

The embedded parsers reproduce the repository's own unit-test cases
(`tests/test_parse_markdown_headers.py`,
`tests/test_extract_expected_output.py`,
`tests/utils/test_parse_llm_ranker_scores.py`). -/

example : parseMarkdownHeaders "" = [] := by decide

example : parseMarkdownHeaders "# Title\n\nline 1\n\nline 2\n" =
    [("Title", "line 1\n\nline 2")] := by decide

example : parseMarkdownHeaders "# First\nalpha\n## Second\nbeta\n# Third\n\n" =
    [("First", "alpha"), ("Second", "beta"), ("Third", "")] := by decide

example : parseMarkdownHeaders "# A\nBefore\n```\n# Not a header\n```\nAfter\n# B\nContent\n" =
    [("A", "Before\n```\n# Not a header\n```\nAfter"), ("B", "Content")] := by decide

example : parseMarkdownHeaders "# A\n~~~python\n## Also not a header\n~~~\n# B\nBody\n" =
    [("A", "~~~python\n## Also not a header\n~~~"), ("B", "Body")] := by decide

example : parseMarkdownHeaders "## Title ##\nBody\n" = [("Title", "Body")] := by decide

example : parseMarkdownHeaders "Prelude text that should be ignored\n# Header\nContent\n" =
    [("Header", "Content")] := by decide

example : extractExpectedOutput
    "\nPrelude text\n```markdown\n# Header\nprint('hello')\n## Header 2\nprint('world')\n```\nAfter text\n" =
    "# Header\nprint('hello')\n## Header 2\nprint('world')" := by decide

example : extractExpectedOutput "\n```js\nconsole.log('x')\n```\n" = "console.log('x')" := by
  decide

example : extractExpectedOutput "  Just plain text without fences  " =
    "Just plain text without fences" := by decide

example : extractExpectedOutput "\n# Header\n```python\nprint('second')\n```\n## Header 2\n\n" =
    "# Header\nprint('second')\n## Header 2" := by decide

example : extractExpectedOutput "" = "" := by decide

example : parseLlmRankerScoresOfList [PyJson.num (mkRat 0 1), PyJson.num 1, PyJson.num (mkRat 1 2)] =
    .ok [0, 1, mkRat 1 2] := by decide

example : parseLlmRankerScoresOfList [PyJson.num 1, PyJson.num 0, PyJson.num (mkRat 1 2)] =
    .ok [1, 0, mkRat 1 2] := by decide

example : (parseLlmRankerScoresOfList [PyJson.num (mkRat 11 10), PyJson.num (mkRat 1 2)]) =
    .error (.invalidScore 0 (PyJson.num (mkRat 11 10))) := by decide

example : (parseLlmRankerScoresOfList [PyJson.num (mkRat 8 10), PyJson.num 2]) =
    .error (.invalidScore 1 (PyJson.num 2)) := by decide

example : (parseLlmRankerScoresOfList [PyJson.num (mkRat (-1) 10), PyJson.num (mkRat 1 2)]) =
    .error (.invalidScore 0 (PyJson.num (mkRat (-1) 10))) := by decide

/-- The success case of `tests/test_parse_project_markdown.py` (unwrapped
variant, fenced expected output, python autotest). -/
example : parseProjectMarkdown
    "# Микропроект для углубления темы: Сортировка массивов\n\n## Цель микропроекта\nНайти эффективный метод сортировки.\n\n## Описание микропроекта\nРеализуйте алгоритм сортировки для целых чисел.\n\n## Входные данные\nСписок целых чисел.\n\n## Ожидаемый результат\n```text\nОтсортированный список чисел в порядке возрастания.\n```\n\n## Эталонное решение\n```python\nprint('solution')\n\n```\n\n## Автотест\n```python\ndef test_sorting():\n    assert sorted([3,1,2]) == [1,2,3]\n\n```" =
    .ok ⟨"# Микропроект для углубления темы: Сортировка массивов\n\n## Цель микропроекта\nНайти эффективный метод сортировки.\n\n## Описание микропроекта\nРеализуйте алгоритм сортировки для целых чисел.\n\n## Входные данные\nСписок целых чисел.\n\n## Ожидаемый результат\n```text\nОтсортированный список чисел в порядке возрастания.\n```\n\n## Эталонное решение\n```python\nprint('solution')\n\n```\n\n## Автотест\n```python\ndef test_sorting():\n    assert sorted([3,1,2]) == [1,2,3]\n\n```",
        "Сортировка массивов",
        "Найти эффективный метод сортировки.",
        "Реализуйте алгоритм сортировки для целых чисел.",
        "Список целых чисел.",
        "Отсортированный список чисел в порядке возрастания.",
        "print('solution')",
        "def test_sorting():\n    assert sorted([3,1,2]) == [1,2,3]"⟩ := by decide

end AIPG
